import Mathlib

/-!
# Verification of the portfolio background scene (src/main.js)

A shallow embedding of the three.js scene driven by `main.js`:
the `TechNetwork` particle field, the `IoTNexus` focal model, the
per-frame `update` functions, the scroll handler `onScroll`, and the
theme machinery (`TechNetwork.setTheme`, `IoTNexus.setTheme`,
`updateTheme`).

JavaScript numbers are embedded as exact rationals (`ℚ`); all the
arithmetic the animation code performs (addition and multiplication of
decimal constants) is exact in both worlds, so no floating-point
rounding is modelled.  `Math.random()` is embedded as an explicit
stream `rng : ℕ → ℚ`, where `rng k` is the value returned by the k-th
call; the constructors consume the stream in source order
(`TechNetwork.initParticles` first: 3 draws per particle, then
`IoTNexus.buildModel`: 3 draws per ring).

Object identity (materials, fog, background) is modelled explicitly:
meshes store a material *slot id* into a fixed table — mutating a table
entry models three.js mutating the shared material object in place —
and fog/background carry an allocation id drawn from a `nextId`
counter, so `new THREE.FogExp2(...)` is visible as a fresh id.
-/

set_option maxRecDepth 8000

/-- A 3-component vector (position / Euler rotation / scale),
mirroring `THREE.Vector3` / `THREE.Euler` fields. -/
structure Vec3 where
  x : ℚ
  y : ℚ
  z : ℚ
deriving DecidableEq, Repr

/-- Componentwise sum. -/
def Vec3.add (a b : Vec3) : Vec3 :=
  ⟨a.x + b.x, a.y + b.y, a.z + b.z⟩

/-- `n`-fold scaling, used to state accumulated rotation after `n` frames. -/
def Vec3.smulN (n : ℕ) (a : Vec3) : Vec3 :=
  ⟨n * a.x, n * a.y, n * a.z⟩

/-- Squared Euclidean distance, the quantity under `Math.sqrt` in
`initParticles`:  `(x1-x2)**2 + (y1-y2)**2 + (z1-z2)**2`. -/
def Vec3.distSq (a b : Vec3) : ℚ :=
  (a.x - b.x) ^ 2 + (a.y - b.y) ^ 2 + (a.z - b.z) ^ 2

/-- Material parameter set.  `color`/`emissive` are hex values as in the
source; fields a given three.js material class does not declare keep the
three.js defaults (`opacity = 1`, `emissive = 0x000000`,
`emissiveIntensity = 1`) and are never written for those slots. -/
structure Material where
  color : ℕ
  opacity : ℚ
  emissive : ℕ
  emissiveIntensity : ℚ
deriving DecidableEq, Repr

/-- Identity of a shared material object.  In the source each of these is
allocated exactly once (`TechNetwork.initParticles` allocates `point` and
`line`; `IoTNexus.initMaterials` allocates `core`, `wire`, `node`, `ring`)
and meshes store a reference to it.  Here meshes store the slot id and the
scene stores one table entry per slot, so "mutate the shared object in
place" is "rewrite the table entry". -/
inductive MatId
  | point
  | line
  | core
  | wire
  | node
  | ring
deriving DecidableEq, Repr

/-- The one-instance-per-slot material table. -/
structure MatTable where
  pointMat : Material
  lineMat : Material
  coreMat : Material
  wireMat : Material
  nodeMat : Material
  ringMat : Material
deriving DecidableEq, Repr

/-- Dereference a material slot. -/
def MatTable.lookup (t : MatTable) : MatId → Material
  | MatId.point => t.pointMat
  | MatId.line => t.lineMat
  | MatId.core => t.coreMat
  | MatId.wire => t.wireMat
  | MatId.node => t.nodeMat
  | MatId.ring => t.ringMat

/-- Overwrite a material slot in place (models mutating the shared
three.js material object). -/
def MatTable.set (t : MatTable) (slot : MatId) (m : Material) : MatTable :=
  match slot with
  | MatId.point => { t with pointMat := m }
  | MatId.line => { t with lineMat := m }
  | MatId.core => { t with coreMat := m }
  | MatId.wire => { t with wireMat := m }
  | MatId.node => { t with nodeMat := m }
  | MatId.ring => { t with ringMat := m }

/-- Material values as constructed (`TechNetwork.initParticles` for
`point`/`line`, `IoTNexus.initMaterials` for the rest). -/
def initMaterials : MatTable :=
  { pointMat := { color := 0x38bdf8, opacity := 0.6, emissive := 0, emissiveIntensity := 1 }
    lineMat := { color := 0x38bdf8, opacity := 0.15, emissive := 0, emissiveIntensity := 1 }
    coreMat := { color := 0x0f172a, opacity := 1, emissive := 0x0ea5e9, emissiveIntensity := 0.2 }
    wireMat := { color := 0x38bdf8, opacity := 0.3, emissive := 0, emissiveIntensity := 1 }
    nodeMat := { color := 0x22d3ee, opacity := 1, emissive := 0x22d3ee, emissiveIntensity := 2 }
    ringMat := { color := 0x94a3b8, opacity := 0.2, emissive := 0, emissiveIntensity := 1 } }

/-- The four scene lights; only their intensities are ever written
(`updateTheme`), so only intensities are modelled. -/
structure Lights where
  ambientIntensity : ℚ
  keyIntensity : ℚ
  rimIntensity : ℚ
  fillIntensity : ℚ
deriving DecidableEq, Repr

/-- Intensities at construction:
`AmbientLight(_, 0.5)`, key `DirectionalLight(_, 2)`, rim `(_, 2)`,
fill `(_, 1)`. -/
def initLights : Lights :=
  ⟨0.5, 2, 2, 1⟩

/-- A mesh: a material reference plus its own transform fields. -/
structure Mesh where
  matId : MatId
  position : Vec3
  scale : Vec3
deriving DecidableEq, Repr

/-! ## TechNetwork (background plexus) -/

/-- `this.particleCount = 200`. -/
def particleCount : ℕ := 200

/-- `const connectDist = 15`. -/
def connectDist : ℚ := 15

/-- Position of particle `i`:
`positions[i*3+k] = (Math.random() - 0.5) * (100|60|60)`, consuming
stream indices `3i`, `3i+1`, `3i+2`. -/
def particlePos (rng : ℕ → ℚ) (i : ℕ) : Vec3 :=
  ⟨(rng (3 * i) - 0.5) * 100, (rng (3 * i + 1) - 0.5) * 60, (rng (3 * i + 2) - 0.5) * 60⟩

/-- The guard `Math.sqrt(dSq) < connectDist` of the line-building loop.
Since both sides are nonnegative, `Real.sqrt dSq < 15 ↔ dSq < 15 ^ 2`
(proved below as `sqrt_lt_connectDist_iff`), which is the squared form
used here to stay inside `ℚ`. -/
def connects (a b : Vec3) : Bool :=
  decide (Vec3.distSq a b < connectDist ^ 2)

/-- The double loop `for i; for j = i+1 .. count` of `initParticles`,
recorded as the list of particle index pairs that get a line segment. -/
def linePairs (pos : ℕ → Vec3) (count : ℕ) : List (ℕ × ℕ) :=
  (List.range count).flatMap fun i =>
    ((List.range count).filter fun j => decide (i < j) && connects (pos i) (pos j)).map
      fun j => (i, j)

/-- The `linePos` buffer: each qualifying pair pushes its two endpoints
once, i.e. contributes one segment. -/
def lineSegments (pos : ℕ → Vec3) (count : ℕ) : List (Vec3 × Vec3) :=
  (linePairs pos count).map fun p => (pos p.1, pos p.2)

/-- State of the `TechNetwork` instance. -/
structure NetworkState where
  groupRotation : Vec3
  positions : List Vec3
  segments : List (Vec3 × Vec3)
  pointsMatId : MatId
  linesMatId : MatId
deriving DecidableEq, Repr

/-- `new TechNetwork(scene)`: group rotation starts at the identity,
particles and segments are computed once, the points/lines meshes
reference the two shared materials. -/
def TechNetwork.init (rng : ℕ → ℚ) : NetworkState :=
  { groupRotation := ⟨0, 0, 0⟩
    positions := (List.range particleCount).map (particlePos rng)
    segments := lineSegments (particlePos rng) particleCount
    pointsMatId := MatId.point
    linesMatId := MatId.line }

/-- `TechNetwork.update`:
`this.group.rotation.y += 0.0005; this.group.rotation.x += 0.0002`. -/
def TechNetwork.update (s : NetworkState) : NetworkState :=
  { s with groupRotation :=
      ⟨s.groupRotation.x + 0.0002, s.groupRotation.y + 0.0005, s.groupRotation.z⟩ }

/-- The fixed per-axis spin of the network group. -/
def networkSpin : Vec3 := ⟨0.0002, 0.0005, 0⟩

/-- `TechNetwork.setTheme(isLight)`. -/
def TechNetwork.setTheme (isLight : Bool) (t : MatTable) : MatTable :=
  let color := if isLight then 0x0ea5e9 else 0x38bdf8
  { t with
    pointMat := { t.pointMat with color := color }
    lineMat := { t.lineMat with
      color := color
      opacity := if isLight then 0.2 else 0.15 } }

/-! ## IoTNexus (focal model) -/

/-- One entry of the `ringGeoms` array literal. -/
structure RingConfig where
  r : ℚ
  tube : ℚ
  rotX : ℚ
  rotY : ℚ
deriving DecidableEq, Repr

/-- The `ringGeoms` literal of `buildModel`. -/
def ringGeoms : List RingConfig :=
  [⟨3.5, 0.02, 1.5, 0.5⟩, ⟨4.2, 0.02, -0.5, 0.8⟩, ⟨5.0, 0.01, 0.2, -0.2⟩]

/-- One orbiting ring sub-group: a torus mesh, a box "node" mesh placed
at `position.x = config.r`, the group rotation, and the random spin
speeds stored in `userData`. -/
structure RingGroup where
  ringMesh : Mesh
  nodeMesh : Mesh
  rotation : Vec3
  speed : Vec3
deriving DecidableEq, Repr

/-- Body of the `ringGeoms.forEach` callback for one config, with `base`
the stream index of its first `Math.random()` call. -/
def buildRing (rng : ℕ → ℚ) (base : ℕ) (cfg : RingConfig) : RingGroup :=
  { ringMesh := { matId := MatId.ring, position := ⟨0, 0, 0⟩, scale := ⟨1, 1, 1⟩ }
    nodeMesh := { matId := MatId.node, position := ⟨cfg.r, 0, 0⟩, scale := ⟨1, 1, 1⟩ }
    rotation := ⟨cfg.rotX, cfg.rotY, 0⟩
    speed := ⟨(rng base - 0.5) * 0.02, (rng (base + 1) - 0.5) * 0.02,
              (rng (base + 2) - 0.5) * 0.02⟩ }

/-- The `forEach` over `ringGeoms`: each ring consumes the next three
`Math.random()` draws. -/
def buildRingsFrom (rng : ℕ → ℚ) (base : ℕ) : List RingConfig → List RingGroup
  | [] => []
  | cfg :: rest => buildRing rng base cfg :: buildRingsFrom rng (base + 3) rest

/-- State of the `IoTNexus` instance. -/
structure NexusState where
  groupPosition : Vec3
  groupRotation : Vec3
  groupScale : Vec3
  coreMesh : Mesh
  wireMesh : Mesh
  rings : List RingGroup
deriving DecidableEq, Repr

/-- `new IoTNexus(scene)`: `group.position.set(12, 0, 0)`,
`group.scale.set(1.2, 1.2, 1.2)`, then `buildModel()`.  The ring loop's
random draws start after the `3 * particleCount` draws made by
`TechNetwork.initParticles` (the network is constructed first). -/
def IoTNexus.init (rng : ℕ → ℚ) : NexusState :=
  { groupPosition := ⟨12, 0, 0⟩
    groupRotation := ⟨0, 0, 0⟩
    groupScale := ⟨1.2, 1.2, 1.2⟩
    coreMesh := { matId := MatId.core, position := ⟨0, 0, 0⟩, scale := ⟨1, 1, 1⟩ }
    wireMesh := { matId := MatId.wire, position := ⟨0, 0, 0⟩, scale := ⟨1, 1, 1⟩ }
    rings := buildRingsFrom rng (3 * particleCount) ringGeoms }

/-- Per-frame spin of one ring:
`ring.rotation.x += speedX; ... .y += speedY; ... .z += speedZ`. -/
def RingGroup.step (g : RingGroup) : RingGroup :=
  { g with rotation :=
      ⟨g.rotation.x + g.speed.x, g.rotation.y + g.speed.y, g.rotation.z + g.speed.z⟩ }

/-- `IoTNexus.update`: `this.group.rotation.y += 0.002` plus the
independent ring spins. -/
def IoTNexus.update (s : NexusState) : NexusState :=
  { s with
    groupRotation := { s.groupRotation with y := s.groupRotation.y + 0.002 }
    rings := s.rings.map RingGroup.step }

/-- `IoTNexus.setTheme(isLight)`. -/
def IoTNexus.setTheme (isLight : Bool) (t : MatTable) : MatTable :=
  if isLight then
    { t with
      coreMat := { t.coreMat with color := 0xf1f5f9, emissive := 0x0ea5e9 }
      wireMat := { t.wireMat with color := 0x0284c7 }
      nodeMat := { t.nodeMat with color := 0x0ea5e9, emissive := 0x0ea5e9 }
      ringMat := { t.ringMat with color := 0x64748b } }
  else
    { t with
      coreMat := { t.coreMat with color := 0x0f172a, emissive := 0x0ea5e9 }
      wireMat := { t.wireMat with color := 0x38bdf8 }
      nodeMat := { t.nodeMat with color := 0x22d3ee, emissive := 0x22d3ee }
      ringMat := { t.ringMat with color := 0x94a3b8 } }

/-! ## Scene-level state, frame step, scroll handler, theme handler -/

/-- The whole mutable scene: both objects, the shared material table,
light intensities, and the fog/background objects.  `fogId` and
`background`'s second component are allocation ids; `nextId` is the
next fresh id, so `new THREE.Color(...)` / `new THREE.FogExp2(...)`
show up as ids drawn from the counter. -/
structure SceneState where
  network : NetworkState
  nexus : NexusState
  mats : MatTable
  lights : Lights
  fogColor : ℕ
  fogId : ℕ
  background : Option (ℕ × ℕ)
  nextId : ℕ
deriving DecidableEq, Repr

/-- Module initialization: `scene.fog = new FogExp2(0x0b0f19, 0.02)`
(id 0), then `new TechNetwork(scene)`, `new IoTNexus(scene)`, lights.
`scene.background` is not assigned until the first `updateTheme`. -/
def build (rng : ℕ → ℚ) : SceneState :=
  { network := TechNetwork.init rng
    nexus := IoTNexus.init rng
    mats := initMaterials
    lights := initLights
    fogColor := 0x0b0f19
    fogId := 0
    background := none
    nextId := 1 }

/-- One frame of the `animate` loop restricted to the specified core:
`network.update(); nexus.update()`. -/
def step (s : SceneState) : SceneState :=
  { s with
    network := TechNetwork.update s.network
    nexus := IoTNexus.update s.nexus }

/-- `n` consecutive frames. -/
def run (n : ℕ) (s : SceneState) : SceneState :=
  match n with
  | 0 => s
  | m + 1 => run m (step s)

/-- The camera; only `position` is relevant to `onScroll`. -/
structure Camera where
  position : Vec3
deriving DecidableEq, Repr

/-- `camera.position.z = 25; camera.position.y = 5`. -/
def initCamera : Camera :=
  ⟨⟨0, 5, 25⟩⟩

/-- `onScroll`, with `t = document.body.getBoundingClientRect().top`:
`nexus.group.rotation.x = t * 0.0005`,
`nexus.group.position.z = t * 0.005`,
`camera.position.y = 5 + t * -0.002`. -/
def onScroll (t : ℚ) (s : SceneState) (cam : Camera) : SceneState × Camera :=
  ({ s with nexus := { s.nexus with
      groupRotation := { s.nexus.groupRotation with x := t * 0.0005 }
      groupPosition := { s.nexus.groupPosition with z := t * 0.005 } } },
   { cam with position := { cam.position with y := 5 + t * (-0.002) } })

/-- `updateTheme(isLight)`: allocates a fresh background `Color` and a
fresh `FogExp2` (in that order), delegates to the two `setTheme`
methods, and rewrites the three light intensities (`fill` untouched). -/
def updateTheme (isLight : Bool) (s : SceneState) : SceneState :=
  let bgHex := if isLight then 0xf0f4f8 else 0x0b0f19
  { s with
    background := some (bgHex, s.nextId)
    fogColor := bgHex
    fogId := s.nextId + 1
    nextId := s.nextId + 2
    mats := IoTNexus.setTheme isLight (TechNetwork.setTheme isLight s.mats)
    lights :=
      if isLight then
        { s.lights with ambientIntensity := 1.0, keyIntensity := 1.5, rimIntensity := 1.0 }
      else
        { s.lights with ambientIntensity := 0.5, keyIntensity := 2.0, rimIntensity := 2.0 } }

/-- The transform data C8 quantifies over: every entity position and
rotation reachable from the scene. -/
def SceneState.transforms (s : SceneState) :
    List Vec3 × Vec3 × Vec3 × Vec3 × Vec3 × List (Vec3 × Vec3 × Vec3) :=
  (s.network.positions, s.network.groupRotation,
   s.nexus.groupPosition, s.nexus.groupRotation, s.nexus.groupScale,
   s.nexus.rings.map fun g => (g.rotation, g.ringMesh.position, g.nodeMesh.position))

/-- Justification for the squared-distance form of `connects`: for a
nonnegative squared distance, the source's `Math.sqrt(dSq) < 15` is
equivalent to `dSq < 15 ^ 2`. -/
theorem sqrt_lt_connectDist_iff (d : ℚ) :
    Real.sqrt (d : ℝ) < 15 ↔ (d : ℝ) < 15 ^ 2 :=
  Real.sqrt_lt' (by norm_num)

/-! ## Claim theorems -/

/-- C1, counterexample: the claim that `onScroll` maps scroll offset `t`
linearly onto the focal model's `rotation.y` and `rotation.z` while
writing no other transform fields is false.  At `t = 0` and a state
whose `rotation.y` is `1`, the handler leaves `rotation.y` at `1 ≠ 0·k1`
(it writes `rotation.x` and `position.z` instead). -/
theorem onScroll_rotationY_claim_false :
    ¬ ∃ k1 k2 baseZ : ℚ, ∀ (t : ℚ) (s : SceneState) (cam : Camera),
      ((onScroll t s cam).1).nexus.groupRotation.y = t * k1 ∧
      ((onScroll t s cam).1).nexus.groupRotation.z = baseZ + t * k2 ∧
      ((onScroll t s cam).1).nexus.groupPosition = s.nexus.groupPosition := by
  rintro ⟨k1, k2, baseZ, h⟩
  have h1 := (h 0
    { build (fun _ => 0) with
        nexus := { (build (fun _ => 0)).nexus with groupRotation := ⟨0, 1, 0⟩ } }
    initCamera).1
  simp [onScroll] at h1

/-- C1, amended: for every scroll offset `t`, `onScroll` sets the focal
model's `rotation.x` to `t · 0.0005` and its `position.z` to `t · 0.005`
(linear, unclamped), leaves `rotation.y`, `rotation.z`, the remaining
position components, the scale, the rings and the network untouched, and
sets the camera's `position.y` to `5 + t · (-0.002)`. -/
theorem onScroll_sets_rotX_and_posZ (t : ℚ) (s : SceneState) (cam : Camera) :
    ((onScroll t s cam).1).nexus.groupRotation.x = t * 0.0005 ∧
    ((onScroll t s cam).1).nexus.groupPosition.z = t * 0.005 ∧
    ((onScroll t s cam).1).nexus.groupRotation.y = s.nexus.groupRotation.y ∧
    ((onScroll t s cam).1).nexus.groupRotation.z = s.nexus.groupRotation.z ∧
    ((onScroll t s cam).1).nexus.groupPosition.x = s.nexus.groupPosition.x ∧
    ((onScroll t s cam).1).nexus.groupPosition.y = s.nexus.groupPosition.y ∧
    ((onScroll t s cam).1).nexus.groupScale = s.nexus.groupScale ∧
    ((onScroll t s cam).1).nexus.rings = s.nexus.rings ∧
    ((onScroll t s cam).1).network = s.network ∧
    ((onScroll t s cam).2).position.y = 5 + t * (-0.002) := by
  refine ⟨rfl, rfl, rfl, rfl, rfl, rfl, rfl, rfl, rfl, rfl⟩

/-- C2: applying the light theme and then the dark theme restores every
material field (colors, opacities, emissive intensities), every light
intensity, and the fog tint to exactly the values present after
construction. -/
theorem applyTheme_roundtrip_restores_dark_values (rng : ℕ → ℚ) :
    (updateTheme false (updateTheme true (build rng))).mats = (build rng).mats ∧
    (updateTheme false (updateTheme true (build rng))).lights = (build rng).lights ∧
    (updateTheme false (updateTheme true (build rng))).fogColor = (build rng).fogColor := by
  refine ⟨rfl, ?_, rfl⟩
  norm_num [updateTheme, build, initLights]

/-- C3, counterexample: the per-frame step is not idempotent.  Starting
from the constructed scene, two consecutive steps leave the network
group's `rotation.y` at `0.001`, while a single step leaves it at
`0.0005`. -/
theorem step_twice_ne_step_once :
    (step (step (build fun _ => 0))).network.groupRotation.y ≠
      (step (build fun _ => 0)).network.groupRotation.y := by
  simp only [step, build, TechNetwork.init, TechNetwork.update, IoTNexus.update]
  norm_num

/-- C3, amended: the per-frame step is deterministic (it is a function
of the scene state) but not idempotent: a second call with the same
signal values advances every spinning rotation axis by its fixed
increment again, so the result of calling it twice never equals the
result of calling it once. -/
theorem step_deterministic_not_idempotent (s : SceneState) :
    (step (step s)).network.groupRotation.y = (step s).network.groupRotation.y + 0.0005 ∧
    (step (step s)).network.groupRotation.x = (step s).network.groupRotation.x + 0.0002 ∧
    (step (step s)).nexus.groupRotation.y = (step s).nexus.groupRotation.y + 0.002 ∧
    step (step s) ≠ step s := by
  refine ⟨rfl, rfl, rfl, ?_⟩
  intro hcontra
  have hy := congrArg (fun u => u.network.groupRotation.y) hcontra
  simp only [step, TechNetwork.update] at hy
  linarith

/-- C4, counterexample: the claim that `updateTheme` leaves every fog /
background object reference unchanged is false: on the constructed
scene, the fog object after `updateTheme(true)` is a fresh allocation
(id `2`), not the fog allocated at construction (id `0`). -/
theorem applyTheme_allocates_new_fog :
    (updateTheme true (build fun _ => 0)).fogId ≠ (build fun _ => 0).fogId := by
  simp [updateTheme, build]

/-- C4, amended: `updateTheme` rewrites material fields in place — every
mesh still references the same material slot afterwards — but it does
allocate: `scene.background` is assigned a fresh `Color` and `scene.fog`
a fresh `FogExp2` on every call, so the fog reference changes whenever
the old fog predates the allocation counter. -/
theorem applyTheme_in_place_materials_fresh_fog (b : Bool) (s : SceneState)
    (h : s.fogId < s.nextId) :
    (updateTheme b s).network.pointsMatId = s.network.pointsMatId ∧
    (updateTheme b s).network.linesMatId = s.network.linesMatId ∧
    (updateTheme b s).nexus.coreMesh.matId = s.nexus.coreMesh.matId ∧
    (updateTheme b s).nexus.wireMesh.matId = s.nexus.wireMesh.matId ∧
    ((updateTheme b s).nexus.rings.map fun g => (g.ringMesh.matId, g.nodeMesh.matId)) =
      (s.nexus.rings.map fun g => (g.ringMesh.matId, g.nodeMesh.matId)) ∧
    (updateTheme b s).fogId = s.nextId + 1 ∧
    (updateTheme b s).fogId ≠ s.fogId ∧
    (updateTheme b s).background = some ((if b then 0xf0f4f8 else 0x0b0f19), s.nextId) := by
  refine ⟨rfl, rfl, rfl, rfl, rfl, rfl, ?_, rfl⟩
  simp only [updateTheme]
  omega

/-- C4, witness for the amended theorem at the constructed scene. -/
theorem applyTheme_in_place_materials_fresh_fog_witness :
    (build fun _ => (0 : ℚ)).fogId < (build fun _ => (0 : ℚ)).nextId ∧
    (updateTheme true (build fun _ => (0 : ℚ))).fogId ≠ (build fun _ => (0 : ℚ)).fogId :=
  ⟨by decide,
   (applyTheme_in_place_materials_fresh_fog true (build fun _ => (0 : ℚ))
      (by decide)).2.2.2.2.2.2.1⟩

/-- C9: the per-frame step mutates only rotation fields.  Particle
positions, line segments, every mesh (material reference, position,
scale), every material, every light intensity, the fog and the
background are bit-for-bit unchanged by `step`. -/
theorem step_preserves_positions_scales_materials (s : SceneState) :
    (step s).network.positions = s.network.positions ∧
    (step s).network.segments = s.network.segments ∧
    (step s).network.pointsMatId = s.network.pointsMatId ∧
    (step s).network.linesMatId = s.network.linesMatId ∧
    (step s).nexus.groupPosition = s.nexus.groupPosition ∧
    (step s).nexus.groupScale = s.nexus.groupScale ∧
    (step s).nexus.coreMesh = s.nexus.coreMesh ∧
    (step s).nexus.wireMesh = s.nexus.wireMesh ∧
    ((step s).nexus.rings.map fun g => (g.ringMesh, g.nodeMesh, g.speed)) =
      (s.nexus.rings.map fun g => (g.ringMesh, g.nodeMesh, g.speed)) ∧
    (step s).mats = s.mats ∧
    (step s).lights = s.lights ∧
    (step s).fogColor = s.fogColor ∧
    (step s).background = s.background := by
  refine ⟨rfl, rfl, rfl, rfl, rfl, rfl, rfl, rfl, ?_, rfl, rfl, rfl, rfl⟩
  simp [step, IoTNexus.update, List.map_map, Function.comp, RingGroup.step]

/-- C5, counterexample: the claim that the builder places its 3
pod/node sub-parts evenly spaced around one fixed radius is false.
Nodes evenly spaced on one circle of radius `ρ` all sit at squared
distance `ρ²` from the model center, but on the constructed scene the
three node meshes sit at squared distances `12.25`, `17.64` and `25`
from their group origins (radii `3.5`, `4.2`, `5.0`), which cannot all
equal one `ρ²`. -/
theorem pods_not_on_single_radius :
    ¬ ∃ ρ : ℚ, ((build fun _ => 0).nexus.rings.map fun g =>
        Vec3.distSq g.nodeMesh.position ⟨0, 0, 0⟩) = [ρ ^ 2, ρ ^ 2, ρ ^ 2] := by
  rintro ⟨ρ, h⟩
  norm_num [build, IoTNexus.init, ringGeoms, buildRingsFrom, buildRing, Vec3.distSq] at h
  obtain ⟨h1, h2, -⟩ := h
  linarith

/-- C5, amended: the builder creates exactly 3 node ("pod") sub-parts,
one per orbit ring, each at local position `(r, 0, 0)` of its ring group
with the three distinct radii `3.5`, `4.2`, `5.0`; the ring groups are
rotated by the fixed per-ring Euler angles of `ringGeoms` (no `i/3·2π`
spacing and no orientation toward the model center is applied). -/
theorem nexus_builds_three_nodes_on_distinct_radii (rng : ℕ → ℚ) :
    (IoTNexus.init rng).rings.length = 3 ∧
    ((IoTNexus.init rng).rings.map fun g => g.nodeMesh.position) =
      [⟨3.5, 0, 0⟩, ⟨4.2, 0, 0⟩, ⟨5.0, 0, 0⟩] ∧
    ((IoTNexus.init rng).rings.map fun g => g.rotation) =
      [⟨1.5, 0.5, 0⟩, ⟨-0.5, 0.8, 0⟩, ⟨0.2, -0.2, 0⟩] := by
  refine ⟨rfl, rfl, rfl⟩

/-- C7: material sharing by reference.  All three ring meshes reference
the single `ring` material slot and all three node meshes the single
`node` material slot, so one write to that slot is observed through
every sub-part's reference. -/
theorem ring_and_node_materials_shared_by_reference
    (rng : ℕ → ℚ) (t : MatTable) (m : Material) :
    ((build rng).nexus.rings.map fun g => g.ringMesh.matId) =
      [MatId.ring, MatId.ring, MatId.ring] ∧
    ((build rng).nexus.rings.map fun g => g.nodeMesh.matId) =
      [MatId.node, MatId.node, MatId.node] ∧
    ((build rng).nexus.rings.map fun g => (t.set MatId.ring m).lookup g.ringMesh.matId) =
      [m, m, m] ∧
    ((build rng).nexus.rings.map fun g => (t.set MatId.node m).lookup g.nodeMesh.matId) =
      [m, m, m] := by
  refine ⟨rfl, rfl, rfl, rfl⟩

/-- C8: determinism.  The construction and the frame loop are functions
of the RNG stream alone: two runs with the same stream and the same
number of frames produce bit-identical entity transforms. -/
theorem build_run_deterministic (rng1 rng2 : ℕ → ℚ) (n : ℕ) (h : rng1 = rng2) :
    (run n (build rng1)).transforms = (run n (build rng2)).transforms := by
  rw [h]

/-- C8, witness: two syntactically identical streams, two frames. -/
theorem build_run_deterministic_witness :
    ((fun (_ : ℕ) => (0 : ℚ)) = fun (_ : ℕ) => (0 : ℚ)) ∧
    (run 2 (build fun _ => (0 : ℚ))).transforms =
      (run 2 (build fun _ => (0 : ℚ))).transforms :=
  ⟨rfl, build_run_deterministic (fun _ => (0 : ℚ)) (fun _ => (0 : ℚ)) 2 rfl⟩

/-- After `n` frames the network group rotation has advanced by exactly
`n` times its fixed per-axis spin. -/
theorem run_network_rotation (n : ℕ) : ∀ s : SceneState,
    (run n s).network.groupRotation =
      Vec3.add s.network.groupRotation (Vec3.smulN n networkSpin) := by
  induction n with
  | zero =>
      intro s
      show s.network.groupRotation = _
      cases hrot : s.network.groupRotation with
      | mk x y z => simp [Vec3.add, Vec3.smulN, networkSpin]
  | succ m ih =>
      intro s
      show (run m (step s)).network.groupRotation = _
      rw [ih (step s)]
      cases hrot : s.network.groupRotation with
      | mk x y z =>
          simp only [step, TechNetwork.update, hrot, Vec3.add, Vec3.smulN, networkSpin,
            Vec3.mk.injEq]
          push_cast
          refine ⟨by ring, by ring, by ring⟩

/-- After `n` frames each ring keeps its speed and has advanced each
rotation axis by exactly `n` times that speed. -/
theorem run_rings_data (n : ℕ) : ∀ s : SceneState,
    ((run n s).nexus.rings.map fun g => (g.rotation, g.speed)) =
      s.nexus.rings.map fun g => (Vec3.add g.rotation (Vec3.smulN n g.speed), g.speed) := by
  induction n with
  | zero =>
      intro s
      show (s.nexus.rings.map fun g => (g.rotation, g.speed)) = _
      apply List.map_congr_left
      intro g _
      cases g with
      | mk rm nm rot sp =>
          cases rot with
          | mk rx ry rz => simp [Vec3.add, Vec3.smulN]
  | succ m ih =>
      intro s
      show ((run m (step s)).nexus.rings.map fun g => (g.rotation, g.speed)) = _
      rw [ih (step s)]
      show ((s.nexus.rings.map RingGroup.step).map
        fun g => (Vec3.add g.rotation (Vec3.smulN m g.speed), g.speed)) = _
      rw [List.map_map]
      apply List.map_congr_left
      intro g _
      cases g with
      | mk rm nm rot sp =>
          cases rot with
          | mk rx ry rz =>
              cases sp with
              | mk sx sy sz =>
                  simp only [RingGroup.step, Vec3.add, Vec3.smulN, Function.comp,
                    Prod.mk.injEq, Vec3.mk.injEq]
                  push_cast
                  exact ⟨⟨by ring, by ring, by ring⟩, trivial⟩

/-- C6: every frame advances each spinning sub-group's rotation axes by
exactly that sub-group's fixed per-axis speed — the network group by
`networkSpin`, each ring by its own random-but-fixed `speed` — and the
accumulation over `n` frames is linear and unbounded (no
normalization): after `n` frames each angle equals its start value plus
`n` times the speed. -/
theorem spin_advances_by_fixed_per_axis_speed (s : SceneState) (n : ℕ) :
    (step s).network.groupRotation.x = s.network.groupRotation.x + networkSpin.x ∧
    (step s).network.groupRotation.y = s.network.groupRotation.y + networkSpin.y ∧
    (step s).network.groupRotation.z = s.network.groupRotation.z + networkSpin.z ∧
    ((step s).nexus.rings.map fun g => (g.rotation, g.speed)) =
      (s.nexus.rings.map fun g => (Vec3.add g.rotation g.speed, g.speed)) ∧
    (run n s).network.groupRotation =
      Vec3.add s.network.groupRotation (Vec3.smulN n networkSpin) ∧
    ((run n s).nexus.rings.map fun g => (g.rotation, g.speed)) =
      (s.nexus.rings.map fun g => (Vec3.add g.rotation (Vec3.smulN n g.speed), g.speed)) := by
  refine ⟨rfl, rfl, ?_, ?_, run_network_rotation n s, run_rings_data n s⟩
  · show s.network.groupRotation.z = s.network.groupRotation.z + networkSpin.z
    simp [networkSpin]
  · show ((s.nexus.rings.map RingGroup.step).map fun g => (g.rotation, g.speed)) = _
    rw [List.map_map]
    apply List.map_congr_left
    intro g _
    cases g with
    | mk rm nm rot sp => simp [RingGroup.step, Vec3.add, Function.comp]

/-- Counting occurrences in a constant-first-component pair list. -/
theorem count_pair_map_same (a b : ℕ) (l : List ℕ) :
    ((l.map fun j' => (a, j')).count (a, b)) = l.count b := by
  induction l with
  | nil => rfl
  | cons x xs ih => simp [List.count_cons, ih, beq_iff_eq, Prod.mk.injEq]

/-- A pair whose first component differs never occurs in such a list. -/
theorem count_pair_map_other (i i' j : ℕ) (l : List ℕ) (h : i' ≠ i) :
    ((l.map fun j' => (i', j')).count (i, j)) = 0 := by
  rw [List.count_eq_zero]
  intro hmem
  obtain ⟨j', -, hj⟩ := List.mem_map.mp hmem
  injection hj with h1 h2
  exact h h1

/-- Each value occurs in `range n` exactly once (or never). -/
theorem count_range_nat (b n : ℕ) :
    (List.range n).count b = if b < n then 1 else 0 := by
  induction n with
  | zero => simp
  | succ m ih =>
      rw [List.range_succ, List.count_append, ih]
      by_cases h : b < m
      · have h2 : b < m + 1 := by omega
        have h3 : m ≠ b := by omega
        simp [h, h2, h3, List.count_cons]
      · by_cases h2 : m = b
        · have h3 : b < m + 1 := by omega
          simp [h, h2, h3, List.count_cons]
        · have h3 : ¬ b < m + 1 := by omega
          simp [h, h2, h3, List.count_cons]

/-- Summing a function supported at a single index over `range n`. -/
theorem sum_map_range_single (i c n : ℕ) :
    ((List.range n).map fun k => if k = i then c else 0).sum = if i < n then c else 0 := by
  induction n with
  | zero => simp
  | succ m ih =>
      rw [List.range_succ, List.map_append, List.sum_append, ih]
      by_cases h1 : i < m
      · have h2 : m ≠ i := by omega
        have h3 : i < m + 1 := by omega
        simp [h1, h2, h3]
      · by_cases h2 : m = i
        · have h3 : i < m + 1 := by omega
          simp [h1, h2, h3]
        · have h3 : ¬ i < m + 1 := by omega
          simp [h1, h2, h3]

/-- C10: at construction a connecting segment exists for an (ordered as
`i < j`, hence unordered) pair of distinct particles exactly when their
squared distance is below `connectDist ^ 2` (the source compares
`Math.sqrt` of it against `connectDist`, see `sqrt_lt_connectDist_iff`),
and each qualifying pair contributes exactly one entry to the segment
list. -/
theorem segment_iff_distance_lt_connectDist (pos : ℕ → Vec3) (count i j : ℕ) :
    (linePairs pos count).count (i, j) =
      (if i < j ∧ j < count ∧ Vec3.distSq (pos i) (pos j) < connectDist ^ 2 then 1 else 0) ∧
    ((i, j) ∈ linePairs pos count ↔
      i < j ∧ j < count ∧ Vec3.distSq (pos i) (pos j) < connectDist ^ 2) := by
  have hcount : (linePairs pos count).count (i, j) =
      (if i < j ∧ j < count ∧ Vec3.distSq (pos i) (pos j) < connectDist ^ 2 then 1 else 0) := by
    rw [linePairs, List.count_flatMap]
    have hmap : ∀ i' ∈ List.range count,
        (List.count (i, j) ∘ fun i' =>
          ((List.range count).filter fun j' =>
            decide (i' < j') && connects (pos i') (pos j')).map fun j' => (i', j')) i' =
        (fun k => if k = i then
            (if i < j ∧ Vec3.distSq (pos i) (pos j) < connectDist ^ 2 then 1 else 0) *
              (if j < count then 1 else 0)
          else 0) i' := by
      intro i' _
      dsimp only [Function.comp]
      by_cases hii : i' = i
      · rw [hii, count_pair_map_same, if_pos rfl]
        by_cases hp : (decide (i < j) && connects (pos i) (pos j)) = true
        · have hp2 : (fun j' => decide (i < j') && connects (pos i) (pos j')) j = true := hp
          rw [@List.count_filter ℕ _ _
            (fun j' => decide (i < j') && connects (pos i) (pos j')) j (List.range count) hp2,
            count_range_nat]
          have hcond : i < j ∧ Vec3.distSq (pos i) (pos j) < connectDist ^ 2 := by
            simpa [connects] using hp
          simp [hcond.1, hcond.2]
        · have hzero : ((List.range count).filter fun j' =>
              decide (i < j') && connects (pos i) (pos j')).count j = 0 := by
            rw [List.count_eq_zero]
            intro hmem
            exact hp (List.mem_filter.mp hmem).2
          rw [hzero]
          have hcond : ¬ (i < j ∧ Vec3.distSq (pos i) (pos j) < connectDist ^ 2) := by
            intro hc
            exact hp (by simp [connects, hc.1, hc.2])
          simp [hcond]
      · rw [count_pair_map_other i i' j
          ((List.range count).filter fun j' =>
            decide (i' < j') && connects (pos i') (pos j')) hii,
          if_neg hii]
    rw [List.map_congr_left hmap, sum_map_range_single]
    by_cases hij : i < j
    · by_cases hj : j < count
      · have hic : i < count := lt_trans hij hj
        by_cases hd : Vec3.distSq (pos i) (pos j) < connectDist ^ 2
        · simp [hic, hij, hj, hd]
        · simp [hic, hij, hj, hd]
      · simp [hij, hj]
    · simp [hij]
  refine ⟨hcount, ⟨?_, ?_⟩⟩
  · intro hmem
    have hpos := List.count_pos_iff.mpr hmem
    rw [hcount] at hpos
    by_contra hcond
    simp [hcond] at hpos
  · intro hcond
    apply List.count_pos_iff.mp
    rw [hcount]
    simp [hcond]
